import Mathlib

/-!
Verification of `scripts/generate_stubs.py`.

The script enumerates a static catalog of type names grouped into three
levels and topical categories, and for each entry writes a fixed Markdown
stub to `PythonTypeGuide/level{L}/{category}/{name.lower()}.md`, creating
missing parent directories first.

The embedding models the filesystem as an explicit state (a set of
directories plus an association list from paths to file contents), paths
as lists of components, and external I/O failures (permissions, disk
full, ...) through an oracle `Env` consulted at each primitive operation.
`idealEnv` is the environment in which no external failure occurs;
structural failures (`os.makedirs("")`, a path component that exists as a
regular file, opening a directory for writing) are modelled directly.
-/

/-- Filesystem paths as lists of components: `a/b/c.md` is `["a", "b", "c.md"]`.
`os.path.dirname` is `List.dropLast`. -/
abbrev FPath := List String

/-- Error outcomes of the modelled filesystem operations, mirroring the
Python exception classes that can escape `create_stub_file`. -/
inductive Err where
  | fileNotFound
  | fileExists
  | isADirectory
  | ioError
  deriving DecidableEq, Repr

/-- Filesystem state: the set of existing directories, and an association
list mapping each existing regular file to its content (a string of bytes). -/
structure FS where
  dirs : List FPath
  files : List (FPath × String)
  deriving DecidableEq, Repr

/-- The empty filesystem: no directories, no files. -/
def emptyFS : FS := ⟨[], []⟩

/-- Oracle deciding which primitive operations fail with an external I/O
error (permission denied, disk full, ...): `mkdirFail d` makes creating
directory `d` fail, `openFail p` makes opening `p` for writing fail. -/
structure Env where
  mkdirFail : FPath → Bool
  openFail : FPath → Bool

/-- The environment in which no external I/O failure occurs. -/
def idealEnv : Env := ⟨fun _ => false, fun _ => false⟩

/-- Look a path up in an association list of files, returning its content. -/
def lookupFile : List (FPath × String) → FPath → Option String
  | [], _ => none
  | (q, c) :: rest, p => if q = p then some c else lookupFile rest p

/-- Write `content` at `p`: replace the entry in place if `p` is present
(`open(path, "w")` truncates), otherwise append a new entry. -/
def writeFile : List (FPath × String) → FPath → String → List (FPath × String)
  | [], p, c => [(p, c)]
  | (q, c0) :: rest, p, c =>
    if q = p then (p, c) :: rest else (q, c0) :: writeFile rest p c

/-- Add directory `d` to the filesystem. -/
def FS.mkdirOne (fs : FS) (d : FPath) : FS := { fs with dirs := d :: fs.dirs }

/-- Create each directory of `todo` in turn (shortest ancestor first), as
`os.makedirs(..., exist_ok=True)` does: an existing directory is skipped
without error; a component existing as a regular file raises
`FileExistsError`; otherwise the external oracle may fail the creation. -/
def mkdirsAux (env : Env) : List FPath → FS → Option Err × FS
  | [], fs => (none, fs)
  | d :: rest, fs =>
    if d ∈ fs.dirs then mkdirsAux env rest fs
    else if (lookupFile fs.files d).isSome then (some Err.fileExists, fs)
    else if env.mkdirFail d then (some Err.ioError, fs)
    else mkdirsAux env rest (fs.mkdirOne d)

/-- The chain of nonempty ancestors of a directory path, shortest first:
`ancestors ["a","b"] = [["a"], ["a","b"]]`. -/
def ancestors (d : FPath) : List FPath :=
  (List.range d.length).map (fun i => d.take (i + 1))

/-- Model of `os.makedirs(d, exist_ok=True)`: `os.makedirs("")` raises
`FileNotFoundError`; otherwise every missing ancestor of `d` is created
in order. -/
def makedirs (env : Env) (d : FPath) (fs : FS) : Option Err × FS :=
  if d = [] then (some Err.fileNotFound, fs)
  else mkdirsAux env (ancestors d) fs

/-- The exact bytes written by the five `f.write` calls of
`create_stub_file`, concatenated. -/
def stubContent (title : String) : String :=
  "# " ++ title ++ "\n\n" ++ "## Overview\n\n" ++ "## Usage\n\n"
    ++ "## Examples\n\n" ++ "## Related Types\n\n"

/-- Model of `create_stub_file(path, title)`: run
`os.makedirs(os.path.dirname(path), exist_ok=True)`, then open `path` for
writing (`"w"` truncates an existing file; opening an existing directory
raises `IsADirectoryError`; the oracle may fail the open) and write the
stub template. On any error the run of this call stops there and the
state reached so far is kept. -/
def create_stub_file (env : Env) (path : FPath) (title : String) (fs : FS) :
    Option Err × FS :=
  match makedirs env path.dropLast fs with
  | (some e, fs1) => (some e, fs1)
  | (none, fs1) =>
    if path ∈ fs1.dirs then (some Err.isADirectory, fs1)
    else if env.openFail path then (some Err.ioError, fs1)
    else (none, { fs1 with files := writeFile fs1.files path (stubContent title) })

/-- One catalog entry: a level (1, 2 or 3), a category and a type name. -/
structure Entry where
  level : Nat
  category : String
  name : String
  deriving DecidableEq, Repr

/-- Level 1 table (`level1_types` in the source), in source order. -/
def level1_types : List (String × List String) :=
  [("primitive", ["int", "float", "str", "bool", "bytes", "complex", "None"]),
   ("collections", ["List", "Dict", "Tuple", "Set", "FrozenSet"]),
   ("utilities",
    ["Optional", "Union", "Any", "Literal", "Callable",
     "Annotated", "Final", "ClassVar", "Type"]),
   ("abcs",
    ["Iterable", "Iterator", "Sequence", "Mapping",
     "MutableMapping", "Sized", "Container", "Collection"])]

/-- Level 2 table (`level2_types` in the source), in source order. -/
def level2_types : List (String × List String) :=
  [("structured", ["TypedDict", "NamedTuple", "TypeAlias", "LiteralString"]),
   ("abcs",
    ["ContextManager", "AsyncContextManager", "Reversible",
     "Hashable", "SupportsInt"]),
   ("async",
    ["Awaitable", "Coroutine", "AsyncIterator",
     "AsyncIterable", "Generator"]),
   ("callable", ["Callable_Args", "TypeGuard", "NewType"]),
   ("tools",
    ["overload", "cast", "reveal_type", "assert_type",
     "assert_never"])]

/-- Level 3 table (`level3_types` in the source), in source order. -/
def level3_types : List (String × List String) :=
  [("generics",
    ["Generic", "TypeVar", "TypeVarTuple", "ParamSpec",
     "Concatenate", "Unpack", "Self"]),
   ("protocols",
    ["Protocol", "runtime_checkable", "is_protocol",
     "get_protocol_members"]),
   ("internals",
    ["ForwardRef", "get_args", "get_origin", "get_type_hints",
     "TypeAliasType", "NoReturn", "Never", "NoDefault"]),
   ("domain", ["BinaryIO", "IO", "TextIO", "Match", "Pattern", "AnyStr"]),
   ("decorators",
    ["dataclass_transform", "final", "override",
     "no_type_check", "no_type_check_decorator",
     "ReadOnly", "Required", "NotRequired"])]

/-- Flatten one level table into entries, preserving iteration order
(Python dict iteration follows insertion order). -/
def entriesOf (lvl : Nat) (tbl : List (String × List String)) : List Entry :=
  tbl.flatMap (fun ct => ct.2.map (fun n => ⟨lvl, ct.1, n⟩))

/-- The full catalog in the order `main` iterates it: level 1, then
level 2, then level 3. -/
def catalogEntries : List Entry :=
  entriesOf 1 level1_types ++ entriesOf 2 level2_types ++ entriesOf 3 level3_types

/-- Lowercase a string character by character, as `str.lower()` does
(the catalog names are ASCII, where `Char.toLower` and Python agree). -/
def pyLower (s : String) : String := ⟨s.data.map Char.toLower⟩

/-- The output path derived for an entry:
`PythonTypeGuide/level{L}/{category}/{name.lower()}.md`. -/
def entryPath (e : Entry) : FPath :=
  ["PythonTypeGuide", "level" ++ toString e.level, e.category,
   pyLower e.name ++ ".md"]

/-- Process a list of catalog entries in order, calling `create_stub_file`
for each; the first error aborts the whole run, keeping the state reached
at the failure point (the Python exception propagates out of `main`). -/
def runEntries (env : Env) : List Entry → FS → Option Err × FS
  | [], fs => (none, fs)
  | e :: rest, fs =>
    match create_stub_file env (entryPath e) e.name fs with
    | (some er, fs1) => (some er, fs1)
    | (none, fs1) => runEntries env rest fs1

/-- Model of `main()`: iterate the whole catalog from the given
filesystem state. -/
def mainRun (env : Env) (fs : FS) : Option Err × FS :=
  runEntries env catalogEntries fs

/-- Well-formed filesystem state: no path is simultaneously a directory
and a regular file (true of every real filesystem state). -/
def FS.WF (fs : FS) : Prop := ∀ d ∈ fs.dirs, lookupFile fs.files d = none

/-- Environment that fails exactly the `open` of
`PythonTypeGuide/level1/primitive/float.md`, used to exhibit a failing
run. -/
def failFloatEnv : Env :=
  ⟨fun _ => false,
   fun p => decide (p = ["PythonTypeGuide", "level1", "primitive", "float.md"])⟩

/-- Three concrete catalog entries used to exhibit a failing run: the
second one is the entry whose write `failFloatEnv` fails. -/
def preE : Entry := ⟨1, "primitive", "int"⟩

/-- The entry whose file write fails under `failFloatEnv`. -/
def badE : Entry := ⟨1, "primitive", "float"⟩

/-- An entry scheduled after the failing one. -/
def postE : Entry := ⟨1, "primitive", "str"⟩

/-! ### Association-list lemmas -/

/-- Looking up in an appended file list tries the left part first. -/
theorem lookupFile_append (f1 f2 : List (FPath × String)) (p : FPath) :
    lookupFile (f1 ++ f2) p
      = match lookupFile f1 p with
        | some c => some c
        | none => lookupFile f2 p := by
  induction f1 with
  | nil => rfl
  | cons qc rest ih =>
    obtain ⟨q, c⟩ := qc
    by_cases h : q = p
    · simp [lookupFile, h]
    · simp [lookupFile, h, ih]

/-- Writing at `p` makes `p` hold the written content. -/
theorem writeFile_lookup_self (f : List (FPath × String)) (p : FPath) (c : String) :
    lookupFile (writeFile f p c) p = some c := by
  induction f with
  | nil => simp [writeFile, lookupFile]
  | cons qc rest ih =>
    obtain ⟨q, c0⟩ := qc
    by_cases h : q = p
    · simp [writeFile, h, lookupFile]
    · simp [writeFile, h, lookupFile, ih]

/-- Writing at `p` leaves every other path unchanged. -/
theorem writeFile_lookup_other (f : List (FPath × String)) (p x : FPath) (c : String)
    (h : x ≠ p) : lookupFile (writeFile f p c) x = lookupFile f x := by
  induction f with
  | nil => simp [writeFile, lookupFile, Ne.symm h]
  | cons qc rest ih =>
    obtain ⟨q, c0⟩ := qc
    by_cases hq : q = p
    · subst hq
      simp [writeFile, lookupFile, Ne.symm h]
    · simp [writeFile, hq, lookupFile, ih]

/-- Writing at an absent path appends the new entry at the end. -/
theorem writeFile_fresh (f : List (FPath × String)) (p : FPath) (c : String)
    (h : lookupFile f p = none) : writeFile f p c = f ++ [(p, c)] := by
  induction f with
  | nil => rfl
  | cons qc rest ih =>
    obtain ⟨q, c0⟩ := qc
    by_cases hq : q = p
    · simp [lookupFile, hq] at h
    · simp only [writeFile, if_neg hq, List.cons_append, List.cons.injEq, true_and]
      exact ih (by simpa [lookupFile, hq] using h)

/-- Rewriting the content a path already holds is a no-op on the list. -/
theorem writeFile_self_eq (f : List (FPath × String)) (p : FPath) (c : String)
    (h : lookupFile f p = some c) : writeFile f p c = f := by
  induction f with
  | nil => simp [lookupFile] at h
  | cons qc rest ih =>
    obtain ⟨q, c0⟩ := qc
    by_cases hq : q = p
    · have hc : c0 = c := by
        have := h
        simp [lookupFile, hq] at this
        exact this
      simp [writeFile, hq, hc]
    · simp only [writeFile, if_neg hq, List.cons.injEq, true_and]
      exact ih (by simpa [lookupFile, hq] using h)

/-! ### Lemmas about `ancestors` -/

/-- An ancestor of `d` is at most as long as `d`. -/
theorem mem_ancestors_length_le (d x : FPath) (h : x ∈ ancestors d) :
    x.length ≤ d.length := by
  simp [ancestors] at h
  obtain ⟨i, hi, rfl⟩ := h
  simp [List.length_take]

/-- A path is never an ancestor of its own parent directory. -/
theorem self_not_mem_ancestors (p : FPath) (h : p.dropLast ≠ []) :
    p ∉ ancestors p.dropLast := by
  intro hmem
  have hle := mem_ancestors_length_le _ _ hmem
  have hlt : p.dropLast.length < p.length := by
    cases p with
    | nil => simp at h
    | cons a l => simp [List.length_dropLast]
  omega

/-! ### Lemmas about `mkdirsAux` and `makedirs` -/

/-- Creating directories never touches the file list. -/
theorem mkdirsAux_files (env : Env) (ds : List FPath) (fs : FS) :
    (mkdirsAux env ds fs).2.files = fs.files := by
  induction ds generalizing fs with
  | nil => rfl
  | cons d rest ih =>
    by_cases h1 : d ∈ fs.dirs
    · simp [mkdirsAux, h1, ih]
    · by_cases h2 : (lookupFile fs.files d).isSome
      · simp [mkdirsAux, h1, h2]
      · by_cases h3 : env.mkdirFail d
        · simp [mkdirsAux, h1, h2, h3]
        · simp only [mkdirsAux, if_neg h1, h2, Bool.false_eq_true, if_false, h3]
          rw [ih]
          rfl

/-- Creating directories never removes an existing directory. -/
theorem mkdirsAux_dirs_mono (env : Env) (ds : List FPath) (fs : FS) (x : FPath)
    (hx : x ∈ fs.dirs) : x ∈ (mkdirsAux env ds fs).2.dirs := by
  induction ds generalizing fs with
  | nil => exact hx
  | cons d rest ih =>
    by_cases h1 : d ∈ fs.dirs
    · simpa [mkdirsAux, h1] using ih fs hx
    · by_cases h2 : (lookupFile fs.files d).isSome
      · simpa [mkdirsAux, h1, h2] using hx
      · by_cases h3 : env.mkdirFail d
        · simpa [mkdirsAux, h1, h2, h3] using hx
        · simp only [mkdirsAux, if_neg h1, h2, Bool.false_eq_true, if_false, h3]
          exact ih (fs.mkdirOne d) (by simp [FS.mkdirOne, hx])

/-- A successful `mkdirsAux` leaves every requested directory present. -/
theorem mkdirsAux_success_mem (env : Env) (ds : List FPath) (fs : FS)
    (h : (mkdirsAux env ds fs).1 = none) :
    ∀ d ∈ ds, d ∈ (mkdirsAux env ds fs).2.dirs := by
  induction ds generalizing fs with
  | nil => intro d hd; cases hd
  | cons d rest ih =>
    intro x hx
    by_cases h1 : d ∈ fs.dirs
    · rcases List.mem_cons.1 hx with rfl | hx2
      · simpa [mkdirsAux, h1] using mkdirsAux_dirs_mono env rest fs x h1
      · simp only [mkdirsAux, if_pos h1] at h ⊢
        exact ih fs h x hx2
    · by_cases h2 : (lookupFile fs.files d).isSome
      · simp [mkdirsAux, h1, h2] at h
      · by_cases h3 : env.mkdirFail d
        · simp [mkdirsAux, h1, h2, h3] at h
        · simp only [mkdirsAux, if_neg h1, h2, Bool.false_eq_true, if_false, h3] at h ⊢
          rcases List.mem_cons.1 hx with rfl | hx2
          · exact mkdirsAux_dirs_mono env rest (fs.mkdirOne x) x (by simp [FS.mkdirOne])
          · exact ih (fs.mkdirOne d) h x hx2

/-- Requesting only directories that already exist is a no-op. -/
theorem mkdirsAux_skip_all (env : Env) (ds : List FPath) (fs : FS)
    (h : ∀ d ∈ ds, d ∈ fs.dirs) : mkdirsAux env ds fs = (none, fs) := by
  induction ds with
  | nil => rfl
  | cons d rest ih =>
    have h1 : d ∈ fs.dirs := h d (List.mem_cons_self d rest)
    simp only [mkdirsAux, if_pos h1]
    exact ih (fun x hx => h x (List.mem_cons_of_mem d hx))

/-- Creating directories preserves well-formedness. -/
theorem mkdirsAux_WF (env : Env) (ds : List FPath) (fs : FS)
    (h : FS.WF fs) : FS.WF (mkdirsAux env ds fs).2 := by
  induction ds generalizing fs with
  | nil => exact h
  | cons d rest ih =>
    by_cases h1 : d ∈ fs.dirs
    · simpa [mkdirsAux, h1] using ih fs h
    · by_cases h2 : (lookupFile fs.files d).isSome
      · simpa [mkdirsAux, h1, h2] using h
      · by_cases h3 : env.mkdirFail d
        · simpa [mkdirsAux, h1, h2, h3] using h
        · simp only [mkdirsAux, if_neg h1, h2, Bool.false_eq_true, if_false, h3]
          refine ih (fs.mkdirOne d) ?_
          intro x hx
          rcases List.mem_cons.1 hx with rfl | hx2
          · simpa [FS.mkdirOne, Option.not_isSome_iff_eq_none] using h2
          · simpa [FS.mkdirOne] using h x hx2

/-- Ideal-environment run of `mkdirsAux` on conflict-free directories:
it succeeds and the directories present afterwards are exactly the old
ones plus the requested ones. -/
theorem mkdirsAux_ideal_ok (ds : List FPath) (fs : FS)
    (h : ∀ d ∈ ds, lookupFile fs.files d = none) :
    (mkdirsAux idealEnv ds fs).1 = none
    ∧ ∀ x, x ∈ (mkdirsAux idealEnv ds fs).2.dirs ↔ x ∈ fs.dirs ∨ x ∈ ds := by
  induction ds generalizing fs with
  | nil => exact ⟨rfl, fun x => by simp [mkdirsAux]⟩
  | cons d rest ih =>
    have hd : lookupFile fs.files d = none := h d (List.mem_cons_self d rest)
    have h2 : ¬((lookupFile fs.files d).isSome = true) := by simp [hd]
    by_cases h1 : d ∈ fs.dirs
    · have ihr := ih fs (fun x hx => h x (List.mem_cons_of_mem d hx))
      refine ⟨by simpa [mkdirsAux, h1] using ihr.1, fun x => ?_⟩
      rw [show (mkdirsAux idealEnv (d :: rest) fs) = mkdirsAux idealEnv rest fs by
        simp [mkdirsAux, h1]]
      rw [ihr.2 x, List.mem_cons]
      constructor
      · rintro (hx | hx)
        · exact Or.inl hx
        · exact Or.inr (Or.inr hx)
      · rintro (hx | rfl | hx)
        · exact Or.inl hx
        · exact Or.inl h1
        · exact Or.inr hx
    · have ihr := ih (fs.mkdirOne d)
        (fun x hx => by simpa [FS.mkdirOne] using h x (List.mem_cons_of_mem d hx))
      have heq : mkdirsAux idealEnv (d :: rest) fs
          = mkdirsAux idealEnv rest (fs.mkdirOne d) := by
        simp [mkdirsAux, h1, h2, idealEnv]
      refine ⟨by rw [heq]; exact ihr.1, fun x => ?_⟩
      rw [heq, ihr.2 x, List.mem_cons]
      simp only [FS.mkdirOne, List.mem_cons]
      tauto

/-- `makedirs` never touches the file list. -/
theorem makedirs_files (env : Env) (d : FPath) (fs : FS) :
    (makedirs env d fs).2.files = fs.files := by
  by_cases h : d = []
  · simp [makedirs, h]
  · simp only [makedirs, if_neg h]
    exact mkdirsAux_files env (ancestors d) fs

/-- `makedirs` never removes an existing directory. -/
theorem makedirs_dirs_mono (env : Env) (d : FPath) (fs : FS) (x : FPath)
    (hx : x ∈ fs.dirs) : x ∈ (makedirs env d fs).2.dirs := by
  by_cases h : d = []
  · simpa [makedirs, h] using hx
  · simp only [makedirs, if_neg h]
    exact mkdirsAux_dirs_mono env (ancestors d) fs x hx

/-- `makedirs` preserves well-formedness. -/
theorem makedirs_WF (env : Env) (d : FPath) (fs : FS)
    (h : FS.WF fs) : FS.WF (makedirs env d fs).2 := by
  by_cases hd : d = []
  · simpa [makedirs, hd] using h
  · simp only [makedirs, if_neg hd]
    exact mkdirsAux_WF env (ancestors d) fs h

/-- A successful `makedirs d` means `d` was nonempty and every ancestor
of `d` exists as a directory afterwards. -/
theorem makedirs_success_facts (env : Env) (d : FPath) (fs : FS)
    (h : (makedirs env d fs).1 = none) :
    d ≠ [] ∧ ∀ x ∈ ancestors d, x ∈ (makedirs env d fs).2.dirs := by
  by_cases hd : d = []
  · simp [makedirs, hd] at h
  · refine ⟨hd, ?_⟩
    simp only [makedirs, if_neg hd] at h ⊢
    exact mkdirsAux_success_mem env (ancestors d) fs h

/-- When every ancestor of a nonempty `d` already exists as a directory,
`makedirs` succeeds without changing the state. -/
theorem makedirs_skip_all (env : Env) (d : FPath) (fs : FS) (hd : d ≠ [])
    (h : ∀ x ∈ ancestors d, x ∈ fs.dirs) : makedirs env d fs = (none, fs) := by
  simp only [makedirs, if_neg hd]
  exact mkdirsAux_skip_all env (ancestors d) fs h

/-- Ideal-environment `makedirs` on a nonempty, conflict-free directory:
it succeeds and the directories afterwards are the old ones plus the
ancestors of `d`. -/
theorem makedirs_ideal_ok (d : FPath) (fs : FS) (hd : d ≠ [])
    (h : ∀ x ∈ ancestors d, lookupFile fs.files x = none) :
    (makedirs idealEnv d fs).1 = none
    ∧ ∀ x, x ∈ (makedirs idealEnv d fs).2.dirs ↔ x ∈ fs.dirs ∨ x ∈ ancestors d := by
  simp only [makedirs, if_neg hd]
  exact mkdirsAux_ideal_ok (ancestors d) fs h

/-! ### Lemmas about `create_stub_file` -/

/-- A failing `create_stub_file` writes no file: the file list is exactly
the one before the call. -/
theorem create_err_files (env : Env) (p : FPath) (t : String) (fs : FS)
    (er : Err) (fs' : FS) (h : create_stub_file env p t fs = (some er, fs')) :
    fs'.files = fs.files := by
  rcases hmk : makedirs env p.dropLast fs with ⟨o, fs1⟩
  have hf1 : fs1.files = fs.files := by
    have hm := makedirs_files env p.dropLast fs
    rw [hmk] at hm; exact hm
  cases o with
  | some e =>
    simp only [create_stub_file, hmk] at h
    obtain ⟨-, rfl⟩ := Prod.mk.injEq .. ▸ h
    exact hf1
  | none =>
    simp only [create_stub_file, hmk] at h
    by_cases h1 : p ∈ fs1.dirs
    · rw [if_pos h1] at h
      obtain ⟨-, rfl⟩ := Prod.mk.injEq .. ▸ h
      exact hf1
    · rw [if_neg h1] at h
      by_cases h2 : env.openFail p
      · rw [if_pos h2] at h
        obtain ⟨-, rfl⟩ := Prod.mk.injEq .. ▸ h
        exact hf1
      · rw [if_neg h2] at h
        simp at h

/-- A successful `create_stub_file` leaves exactly the stub template at
its path. -/
theorem create_lookup_self (env : Env) (p : FPath) (t : String) (fs fs' : FS)
    (h : create_stub_file env p t fs = (none, fs')) :
    lookupFile fs'.files p = some (stubContent t) := by
  rcases hmk : makedirs env p.dropLast fs with ⟨o, fs1⟩
  cases o with
  | some e => simp [create_stub_file, hmk] at h
  | none =>
    simp only [create_stub_file, hmk] at h
    by_cases h1 : p ∈ fs1.dirs
    · rw [if_pos h1] at h; simp at h
    · rw [if_neg h1] at h
      by_cases h2 : env.openFail p
      · rw [if_pos h2] at h; simp at h
      · rw [if_neg h2] at h
        obtain ⟨-, rfl⟩ := Prod.mk.injEq .. ▸ h
        exact writeFile_lookup_self fs1.files p (stubContent t)

/-- `create_stub_file` at `p` never changes the content of any other
path, whether it succeeds or fails. -/
theorem create_lookup_other (env : Env) (p : FPath) (t : String) (fs : FS)
    (x : FPath) (hx : x ≠ p) :
    lookupFile (create_stub_file env p t fs).2.files x = lookupFile fs.files x := by
  rcases hmk : makedirs env p.dropLast fs with ⟨o, fs1⟩
  have hf1 : fs1.files = fs.files := by
    have hm := makedirs_files env p.dropLast fs
    rw [hmk] at hm; exact hm
  cases o with
  | some e => simp [create_stub_file, hmk, hf1]
  | none =>
    simp only [create_stub_file, hmk]
    by_cases h1 : p ∈ fs1.dirs
    · simp [if_pos h1, hf1]
    · rw [if_neg h1]
      by_cases h2 : env.openFail p
      · simp [if_pos h2, hf1]
      · rw [if_neg h2]
        show lookupFile (writeFile fs1.files p (stubContent t)) x = _
        rw [writeFile_lookup_other fs1.files p x (stubContent t) hx, hf1]

/-- `create_stub_file` never removes an existing directory. -/
theorem create_dirs_mono (env : Env) (p : FPath) (t : String) (fs : FS)
    (x : FPath) (hx : x ∈ fs.dirs) :
    x ∈ (create_stub_file env p t fs).2.dirs := by
  rcases hmk : makedirs env p.dropLast fs with ⟨o, fs1⟩
  have hd1 : x ∈ fs1.dirs := by
    have hm := makedirs_dirs_mono env p.dropLast fs x hx
    rw [hmk] at hm; exact hm
  cases o with
  | some e => simpa [create_stub_file, hmk] using hd1
  | none =>
    simp only [create_stub_file, hmk]
    by_cases h1 : p ∈ fs1.dirs
    · simpa [if_pos h1] using hd1
    · rw [if_neg h1]
      by_cases h2 : env.openFail p
      · simpa [if_pos h2] using hd1
      · rw [if_neg h2]
        simpa using hd1

/-- `create_stub_file` preserves well-formedness. -/
theorem create_WF (env : Env) (p : FPath) (t : String) (fs : FS)
    (h : FS.WF fs) : FS.WF (create_stub_file env p t fs).2 := by
  rcases hmk : makedirs env p.dropLast fs with ⟨o, fs1⟩
  have hWF1 : FS.WF fs1 := by
    have hm := makedirs_WF env p.dropLast fs h
    rw [hmk] at hm; exact hm
  cases o with
  | some e => simpa [create_stub_file, hmk] using hWF1
  | none =>
    simp only [create_stub_file, hmk]
    by_cases h1 : p ∈ fs1.dirs
    · simpa [if_pos h1] using hWF1
    · rw [if_neg h1]
      by_cases h2 : env.openFail p
      · simpa [if_pos h2] using hWF1
      · rw [if_neg h2]
        intro d hd
        show lookupFile (writeFile fs1.files p (stubContent t)) d = none
        have hdp : d ≠ p := fun hdev => h1 (hdev ▸ hd)
        rw [writeFile_lookup_other fs1.files p d (stubContent t) hdp]
        exact hWF1 d hd

/-- Facts established by a successful `create_stub_file`: the path had a
nonempty directory part, every ancestor directory exists afterwards, and
the environment does not fail the open of this path. -/
theorem create_success_facts (env : Env) (p : FPath) (t : String) (fs fs' : FS)
    (h : create_stub_file env p t fs = (none, fs')) :
    p.dropLast ≠ [] ∧ (∀ d ∈ ancestors p.dropLast, d ∈ fs'.dirs)
      ∧ env.openFail p = false := by
  rcases hmk : makedirs env p.dropLast fs with ⟨o, fs1⟩
  cases o with
  | some e => simp [create_stub_file, hmk] at h
  | none =>
    have hmf := makedirs_success_facts env p.dropLast fs (by rw [hmk])
    rw [hmk] at hmf
    simp only [create_stub_file, hmk] at h
    by_cases h1 : p ∈ fs1.dirs
    · rw [if_pos h1] at h; simp at h
    · rw [if_neg h1] at h
      by_cases h2 : env.openFail p
      · rw [if_pos h2] at h; simp at h
      · rw [if_neg h2] at h
        obtain ⟨-, rfl⟩ := Prod.mk.injEq .. ▸ h
        refine ⟨hmf.1, fun d hd => ?_, by simpa using h2⟩
        show d ∈ fs1.dirs
        exact hmf.2 d hd

/-- Replaying `create_stub_file` on a state where its effects are already
present is the identity: the call succeeds and changes nothing. -/
theorem create_replay (env : Env) (p : FPath) (t : String) (fs : FS)
    (hWF : FS.WF fs)
    (hd : p.dropLast ≠ [])
    (hanc : ∀ d ∈ ancestors p.dropLast, d ∈ fs.dirs)
    (hfile : lookupFile fs.files p = some (stubContent t))
    (hopen : env.openFail p = false) :
    create_stub_file env p t fs = (none, fs) := by
  have hmk : makedirs env p.dropLast fs = (none, fs) :=
    makedirs_skip_all env p.dropLast fs hd hanc
  simp only [create_stub_file, hmk]
  have h1 : p ∉ fs.dirs := by
    intro hp
    have := hWF p hp
    rw [hfile] at this
    cases this
  rw [if_neg h1, hopen]
  simp only [Bool.false_eq_true, if_false]
  rw [writeFile_self_eq fs.files p (stubContent t) hfile]

/-- Ideal-environment `create_stub_file` on a conflict-free state: it
succeeds, writes the stub at `p`, and adds exactly the ancestors of the
directory part of `p` to the directories. -/
theorem create_ideal_ok (p : FPath) (t : String) (fs : FS)
    (hd : p.dropLast ≠ [])
    (hanc : ∀ d ∈ ancestors p.dropLast, lookupFile fs.files d = none)
    (hp : p ∉ fs.dirs) :
    (create_stub_file idealEnv p t fs).1 = none
    ∧ (create_stub_file idealEnv p t fs).2.files = writeFile fs.files p (stubContent t)
    ∧ ∀ x, x ∈ (create_stub_file idealEnv p t fs).2.dirs
        ↔ x ∈ fs.dirs ∨ x ∈ ancestors p.dropLast := by
  rcases hmk : makedirs idealEnv p.dropLast fs with ⟨o, fs1⟩
  have hok := makedirs_ideal_ok p.dropLast fs hd hanc
  rw [hmk] at hok
  have hf1 : fs1.files = fs.files := by
    have hm := makedirs_files idealEnv p.dropLast fs
    rw [hmk] at hm; exact hm
  obtain ⟨ho, hdirs⟩ := hok
  cases o with
  | some e => simp at ho
  | none =>
    have h1 : p ∉ fs1.dirs := by
      rw [hdirs p]
      rintro (hc | hc)
      · exact hp hc
      · exact self_not_mem_ancestors p hd hc
    have h2 : idealEnv.openFail p = false := rfl
    simp only [create_stub_file, hmk, if_neg h1, h2, Bool.false_eq_true, if_false]
    exact ⟨trivial, by rw [hf1], fun x => hdirs x⟩

/-! ### Lemmas about `runEntries` -/

/-- A successful run over `e :: rest` decomposes into a successful
`create_stub_file` for `e` followed by a successful run over `rest`. -/
theorem runEntries_cons_success (env : Env) (e : Entry) (rest : List Entry)
    (fs fs' : FS) (h : runEntries env (e :: rest) fs = (none, fs')) :
    ∃ g, create_stub_file env (entryPath e) e.name fs = (none, g)
      ∧ runEntries env rest g = (none, fs') := by
  rcases hc : create_stub_file env (entryPath e) e.name fs with ⟨o, g⟩
  cases o with
  | some er => simp [runEntries, hc] at h
  | none =>
    refine ⟨g, rfl, ?_⟩
    simpa [runEntries, hc] using h

/-- Appending after a successfully processed block continues from the
block's final state. -/
theorem runEntries_append (env : Env) (l1 l2 : List Entry) (fs g : FS)
    (h : runEntries env l1 fs = (none, g)) :
    runEntries env (l1 ++ l2) fs = runEntries env l2 g := by
  induction l1 generalizing fs with
  | nil =>
    simp only [runEntries] at h
    obtain ⟨-, rfl⟩ := Prod.mk.injEq .. ▸ h
    rfl
  | cons e rest ih =>
    obtain ⟨g1, hc, hrest⟩ := runEntries_cons_success env e rest fs g h
    simp only [List.cons_append, runEntries, hc]
    exact ih g1 hrest

/-- A run only ever writes at the paths of its entries: every other path
keeps its content, whether the run succeeds or aborts. -/
theorem runEntries_lookup_unchanged (env : Env) (l : List Entry) (fs : FS)
    (x : FPath) (hx : ∀ e ∈ l, entryPath e ≠ x) :
    lookupFile (runEntries env l fs).2.files x = lookupFile fs.files x := by
  induction l generalizing fs with
  | nil => rfl
  | cons e rest ih =>
    rcases hc : create_stub_file env (entryPath e) e.name fs with ⟨o, g⟩
    have hgx : lookupFile g.files x = lookupFile fs.files x := by
      have hl := create_lookup_other env (entryPath e) e.name fs x
        (fun hex => hx e (List.mem_cons_self e rest) hex.symm)
      rw [hc] at hl
      exact hl
    cases o with
    | some er => simpa [runEntries, hc] using hgx
    | none =>
      simp only [runEntries, hc]
      rw [ih g (fun e2 he2 => hx e2 (List.mem_cons_of_mem e he2))]
      exact hgx

/-- A run never removes an existing directory. -/
theorem runEntries_dirs_mono (env : Env) (l : List Entry) (fs : FS)
    (x : FPath) (hx : x ∈ fs.dirs) : x ∈ (runEntries env l fs).2.dirs := by
  induction l generalizing fs with
  | nil => exact hx
  | cons e rest ih =>
    rcases hc : create_stub_file env (entryPath e) e.name fs with ⟨o, g⟩
    have hg : x ∈ g.dirs := by
      have hm := create_dirs_mono env (entryPath e) e.name fs x hx
      rw [hc] at hm
      exact hm
    cases o with
    | some er => simpa [runEntries, hc] using hg
    | none =>
      simp only [runEntries, hc]
      exact ih g hg

/-- A run preserves well-formedness. -/
theorem runEntries_WF (env : Env) (l : List Entry) (fs : FS)
    (h : FS.WF fs) : FS.WF (runEntries env l fs).2 := by
  induction l generalizing fs with
  | nil => exact h
  | cons e rest ih =>
    rcases hc : create_stub_file env (entryPath e) e.name fs with ⟨o, g⟩
    have hg : FS.WF g := by
      have hm := create_WF env (entryPath e) e.name fs h
      rw [hc] at hm
      exact hm
    cases o with
    | some er => simpa [runEntries, hc] using hg
    | none =>
      simp only [runEntries, hc]
      exact ih g hg

/-- Facts established at the final state of a successful run over
entries with pairwise distinct paths: each entry's ancestors exist as
directories, its file holds exactly its stub, and the environment does
not fail its open. -/
theorem runEntries_success_facts (env : Env) (l : List Entry) (fs fs' : FS)
    (hnd : (l.map entryPath).Nodup)
    (h : runEntries env l fs = (none, fs')) :
    ∀ e ∈ l, (entryPath e).dropLast ≠ []
      ∧ (∀ d ∈ ancestors (entryPath e).dropLast, d ∈ fs'.dirs)
      ∧ lookupFile fs'.files (entryPath e) = some (stubContent e.name)
      ∧ env.openFail (entryPath e) = false := by
  induction l generalizing fs with
  | nil => intro e he; cases he
  | cons e0 rest ih =>
    obtain ⟨g, hc, hrest⟩ := runEntries_cons_success env e0 rest fs fs' h
    have hnd' : (rest.map entryPath).Nodup := (List.nodup_cons.1 hnd).2
    have hne : ∀ e2 ∈ rest, entryPath e2 ≠ entryPath e0 := by
      intro e2 he2 heq
      exact (List.nodup_cons.1 hnd).1 (heq ▸ List.mem_map_of_mem entryPath he2)
    intro e he
    rcases List.mem_cons.1 he with rfl | he2
    · have hf := create_success_facts env (entryPath e) e.name fs g hc
      refine ⟨hf.1, fun d hd => ?_, ?_, hf.2.2⟩
      · have := hf.2.1 d hd
        have hm := runEntries_dirs_mono env rest g d this
        rw [hrest] at hm
        exact hm
      · have hu := runEntries_lookup_unchanged env rest g (entryPath e) hne
        rw [hrest] at hu
        rw [hu]
        exact create_lookup_self env (entryPath e) e.name fs g hc
    · exact ih g hnd' hrest e he2

/-- Replaying a run on a state that already holds every entry's effects
is the identity: the run succeeds and changes nothing. -/
theorem runEntries_replay (env : Env) (l : List Entry) (fs : FS)
    (hWF : FS.WF fs)
    (hfacts : ∀ e ∈ l, (entryPath e).dropLast ≠ []
      ∧ (∀ d ∈ ancestors (entryPath e).dropLast, d ∈ fs.dirs)
      ∧ lookupFile fs.files (entryPath e) = some (stubContent e.name)
      ∧ env.openFail (entryPath e) = false) :
    runEntries env l fs = (none, fs) := by
  induction l with
  | nil => rfl
  | cons e rest ih =>
    have hf := hfacts e (List.mem_cons_self e rest)
    have hc : create_stub_file env (entryPath e) e.name fs = (none, fs) :=
      create_replay env (entryPath e) e.name fs hWF hf.1 hf.2.1 hf.2.2.1 hf.2.2.2
    simp only [runEntries, hc]
    exact ih (fun e2 he2 => hfacts e2 (List.mem_cons_of_mem e he2))

/-! ### Structural facts about entry paths -/

/-- The directory part of an entry path. -/
theorem entryPath_dropLast (e : Entry) :
    (entryPath e).dropLast
      = ["PythonTypeGuide", "level" ++ toString e.level, e.category] := rfl

/-- Every entry path has a nonempty directory part. -/
theorem entryPath_dropLast_ne_nil (e : Entry) : (entryPath e).dropLast ≠ [] := by
  rw [entryPath_dropLast]
  simp

/-- Every entry path has four components. -/
theorem entryPath_length (e : Entry) : (entryPath e).length = 4 := rfl

/-- No entry path is an ancestor directory of any entry path: ancestors
have at most three components, entry paths have four. -/
theorem entryPath_not_mem_ancestors (e e2 : Entry) :
    entryPath e ∉ ancestors (entryPath e2).dropLast := by
  intro hmem
  have hle := mem_ancestors_length_le _ _ hmem
  rw [entryPath_length e, entryPath_dropLast e2] at hle
  simp at hle

/-- Ideal-environment run over entries with pairwise distinct paths, on a
state containing none of the involved files or directories: the run
succeeds, appends exactly one stub file per entry in iteration order, and
creates exactly the ancestor directories of the entries. -/
theorem runEntries_ideal_ok (l : List Entry) (fs : FS)
    (hnd : (l.map entryPath).Nodup)
    (hB : ∀ e ∈ l, ∀ d ∈ ancestors (entryPath e).dropLast,
      lookupFile fs.files d = none)
    (hC : ∀ e ∈ l, entryPath e ∉ fs.dirs)
    (hC2 : ∀ e ∈ l, lookupFile fs.files (entryPath e) = none) :
    (runEntries idealEnv l fs).1 = none
    ∧ (runEntries idealEnv l fs).2.files
        = fs.files ++ l.map (fun e => (entryPath e, stubContent e.name))
    ∧ ∀ x, x ∈ (runEntries idealEnv l fs).2.dirs
        ↔ x ∈ fs.dirs ∨ ∃ e ∈ l, x ∈ ancestors (entryPath e).dropLast := by
  induction l generalizing fs with
  | nil => exact ⟨rfl, by simp [runEntries], fun x => by simp [runEntries]⟩
  | cons e rest ih =>
    have hmem : e ∈ e :: rest := List.mem_cons_self e rest
    have hco := create_ideal_ok (entryPath e) e.name fs
      (entryPath_dropLast_ne_nil e) (hB e hmem) (hC e hmem)
    rcases hc : create_stub_file idealEnv (entryPath e) e.name fs with ⟨o, g⟩
    rw [hc] at hco
    obtain ⟨ho, hgf, hgd⟩ := hco
    cases o with
    | some er => simp at ho
    | none =>
      have hgfa : g.files
          = fs.files ++ [(entryPath e, stubContent e.name)] := by
        rw [hgf, writeFile_fresh fs.files (entryPath e) (stubContent e.name)
          (hC2 e hmem)]
      have hrun : runEntries idealEnv (e :: rest) fs = runEntries idealEnv rest g := by
        simp [runEntries, hc]
      have hnd' : (rest.map entryPath).Nodup := (List.nodup_cons.1 hnd).2
      have hne : ∀ e2 ∈ rest, entryPath e2 ≠ entryPath e := by
        intro e2 he2 heq
        exact (List.nodup_cons.1 hnd).1 (heq ▸ List.mem_map_of_mem entryPath he2)
      have hB' : ∀ e2 ∈ rest, ∀ d ∈ ancestors (entryPath e2).dropLast,
          lookupFile g.files d = none := by
        intro e2 he2 d hd
        rw [hgfa, lookupFile_append]
        rw [hB e2 (List.mem_cons_of_mem e he2) d hd]
        have hpd : entryPath e ≠ d := by
          intro heq
          exact entryPath_not_mem_ancestors e e2 (heq ▸ hd)
        simp [lookupFile, hpd]
      have hC' : ∀ e2 ∈ rest, entryPath e2 ∉ g.dirs := by
        intro e2 he2 hg
        rcases (hgd (entryPath e2)).1 hg with hin | hin
        · exact hC e2 (List.mem_cons_of_mem e he2) hin
        · exact entryPath_not_mem_ancestors e2 e hin
      have hC2' : ∀ e2 ∈ rest, lookupFile g.files (entryPath e2) = none := by
        intro e2 he2
        rw [hgfa, lookupFile_append]
        rw [hC2 e2 (List.mem_cons_of_mem e he2)]
        simp [lookupFile, Ne.symm (hne e2 he2)]
      obtain ⟨ih1, ih2, ih3⟩ := ih g hnd' hB' hC' hC2'
      refine ⟨by rw [hrun]; exact ih1, ?_, ?_⟩
      · rw [hrun, ih2, hgfa]
        simp [List.append_assoc]
      · intro x
        rw [hrun, ih3 x]
        constructor
        · rintro (hx | hx)
          · rcases (hgd x).1 hx with hx2 | hx2
            · exact Or.inl hx2
            · exact Or.inr ⟨e, hmem, hx2⟩
          · obtain ⟨e2, he2, hx2⟩ := hx
            exact Or.inr ⟨e2, List.mem_cons_of_mem e he2, hx2⟩
        · rintro (hx | ⟨e2, he2, hx2⟩)
          · exact Or.inl ((hgd x).2 (Or.inl hx))
          · rcases List.mem_cons.1 he2 with rfl | he3
            · exact Or.inl ((hgd x).2 (Or.inr hx2))
            · exact Or.inr ⟨e2, he3, hx2⟩

/-- The 84 output paths derived from the actual catalog tables are
pairwise distinct. -/
theorem catalog_paths_nodup : (catalogEntries.map entryPath).Nodup := by decide

/-- The full catalog run in the ideal environment from an empty
filesystem: it succeeds, the resulting file list is exactly one stub per
catalog entry in iteration order, and the directories are exactly the
ancestors of the entries' paths. -/
theorem mainRun_ideal_spec :
    (mainRun idealEnv emptyFS).1 = none
    ∧ (mainRun idealEnv emptyFS).2.files
        = catalogEntries.map (fun e => (entryPath e, stubContent e.name))
    ∧ ∀ x, x ∈ (mainRun idealEnv emptyFS).2.dirs
        ↔ ∃ e ∈ catalogEntries, x ∈ ancestors (entryPath e).dropLast := by
  have h := runEntries_ideal_ok catalogEntries emptyFS catalog_paths_nodup
    (fun e _ d _ => rfl) (fun e _ hc => by cases hc) (fun e _ => rfl)
  obtain ⟨h1, h2, h3⟩ := h
  refine ⟨h1, by simpa [emptyFS] using h2, fun x => ?_⟩
  rw [show mainRun idealEnv emptyFS = runEntries idealEnv catalogEntries emptyFS from rfl]
  rw [h3 x]
  simp [emptyFS]

/-- Looking an entry's path up in the stub-file list written for entries
with pairwise distinct paths yields that entry's stub. -/
theorem lookupFile_stub_map_of_mem (l : List Entry) (e : Entry)
    (hnd : (l.map entryPath).Nodup) (he : e ∈ l) :
    lookupFile (l.map (fun e2 => (entryPath e2, stubContent e2.name))) (entryPath e)
      = some (stubContent e.name) := by
  induction l with
  | nil => cases he
  | cons e0 rest ih =>
    rcases List.mem_cons.1 he with rfl | he2
    · simp [lookupFile]
    · have hne : entryPath e0 ≠ entryPath e := by
        intro heq
        exact (List.nodup_cons.1 hnd).1 (heq ▸ List.mem_map_of_mem entryPath he2)
      simp only [List.map_cons, lookupFile, if_neg hne]
      exact ih (List.nodup_cons.1 hnd).2 he2

/-- Looking up a path that belongs to no entry of the list yields
nothing. -/
theorem lookupFile_stub_map_of_not_mem (l : List Entry) (p : FPath)
    (hp : ∀ e ∈ l, entryPath e ≠ p) :
    lookupFile (l.map (fun e2 => (entryPath e2, stubContent e2.name))) p = none := by
  induction l with
  | nil => rfl
  | cons e0 rest ih =>
    simp only [List.map_cons, lookupFile,
      if_neg (hp e0 (List.mem_cons_self e0 rest))]
    exact ih (fun e he => hp e (List.mem_cons_of_mem e0 he))

/-- Every ancestor directory of an entry path starts with the base
directory `PythonTypeGuide`. -/
theorem mem_ancestors_entry_head (e : Entry) (d : FPath)
    (hd : d ∈ ancestors (entryPath e).dropLast) :
    d.head? = some "PythonTypeGuide" := by
  rw [entryPath_dropLast] at hd
  simp [ancestors] at hd
  obtain ⟨i, hi, rfl⟩ := hd
  simp [List.take_succ_cons]

/-! ### Claim theorems -/

/-- C1: for every call `create_stub_file(path, title)` that succeeds, the
file at `path` afterwards contains exactly the bytes
`"# " + title + "\n\n## Overview\n\n## Usage\n\n## Examples\n\n## Related Types\n\n"`,
the title substituted verbatim, each header followed by a blank line, no
body content. -/
theorem create_stub_file_content (env : Env) (p : FPath) (t : String)
    (fs fs' : FS) (h : create_stub_file env p t fs = (none, fs')) :
    lookupFile fs'.files p
      = some ("# " ++ t
        ++ "\n\n## Overview\n\n## Usage\n\n## Examples\n\n## Related Types\n\n") := by
  rw [create_lookup_self env p t fs fs' h]
  simp only [stubContent, String.append_assoc]
  rfl

/-- Witness for C1 at a concrete successful call. -/
theorem create_stub_file_content_witness :
    create_stub_file idealEnv ["PythonTypeGuide", "level1", "primitive", "int.md"]
        "int" emptyFS
      = (none, (create_stub_file idealEnv
          ["PythonTypeGuide", "level1", "primitive", "int.md"] "int" emptyFS).2)
    ∧ lookupFile (create_stub_file idealEnv
        ["PythonTypeGuide", "level1", "primitive", "int.md"] "int" emptyFS).2.files
        ["PythonTypeGuide", "level1", "primitive", "int.md"]
      = some ("# " ++ "int"
        ++ "\n\n## Overview\n\n## Usage\n\n## Examples\n\n## Related Types\n\n") := by
  have h : create_stub_file idealEnv
      ["PythonTypeGuide", "level1", "primitive", "int.md"] "int" emptyFS
    = (none, (create_stub_file idealEnv
        ["PythonTypeGuide", "level1", "primitive", "int.md"] "int" emptyFS).2) := rfl
  exact ⟨h, create_stub_file_content idealEnv _ "int" emptyFS _ h⟩

/-- C2: after any successful run of `main`, for every catalog entry
`(level, category, name)` a file exists at
`PythonTypeGuide/level{level}/{category}/{lowercase(name)}.md`. -/
theorem main_creates_all_files (env : Env) (fs fs' : FS)
    (h : mainRun env fs = (none, fs')) :
    ∀ e ∈ catalogEntries,
      (lookupFile fs'.files
        ["PythonTypeGuide", "level" ++ toString e.level, e.category,
         pyLower e.name ++ ".md"]).isSome := by
  have h' : runEntries env catalogEntries fs = (none, fs') := h
  intro e he
  have hf := runEntries_success_facts env catalogEntries fs fs'
    catalog_paths_nodup h' e he
  have hpath : (["PythonTypeGuide", "level" ++ toString e.level, e.category,
      pyLower e.name ++ ".md"] : FPath) = entryPath e := rfl
  rw [hpath, hf.2.2.1]
  rfl

/-- Witness for C2: the ideal run from the empty filesystem and the
catalog entry for `int`. -/
theorem main_creates_all_files_witness :
    mainRun idealEnv emptyFS = (none, (mainRun idealEnv emptyFS).2)
    ∧ (⟨1, "primitive", "int"⟩ : Entry) ∈ catalogEntries
    ∧ (lookupFile (mainRun idealEnv emptyFS).2.files
        ["PythonTypeGuide",
         "level" ++ toString (Entry.mk 1 "primitive" "int").level,
         (Entry.mk 1 "primitive" "int").category,
         pyLower (Entry.mk 1 "primitive" "int").name ++ ".md"]).isSome := by
  have h0 : (mainRun idealEnv emptyFS).1 = none := mainRun_ideal_spec.1
  have h : mainRun idealEnv emptyFS = (none, (mainRun idealEnv emptyFS).2) := by
    rw [← h0]
  have hmem : (⟨1, "primitive", "int"⟩ : Entry) ∈ catalogEntries := by decide
  exact ⟨h, hmem,
    main_creates_all_files idealEnv emptyFS _ h ⟨1, "primitive", "int"⟩ hmem⟩

/-- C3: running `main` a second time from the state a successful run
produced succeeds again and leaves the very same state — the output tree
of two consecutive runs is the output tree of one run. -/
theorem main_idempotent (env : Env) (fs fs1 : FS) (hWF : FS.WF fs)
    (h : mainRun env fs = (none, fs1)) : mainRun env fs1 = (none, fs1) := by
  have h' : runEntries env catalogEntries fs = (none, fs1) := h
  have hfacts := runEntries_success_facts env catalogEntries fs fs1
    catalog_paths_nodup h'
  have hWF1 : FS.WF fs1 := by
    have hw := runEntries_WF env catalogEntries fs hWF
    rw [h'] at hw
    exact hw
  show runEntries env catalogEntries fs1 = (none, fs1)
  exact runEntries_replay env catalogEntries fs1 hWF1 hfacts

/-- Witness for C3: the ideal run from the empty filesystem. -/
theorem main_idempotent_witness :
    FS.WF emptyFS
    ∧ mainRun idealEnv emptyFS = (none, (mainRun idealEnv emptyFS).2)
    ∧ mainRun idealEnv (mainRun idealEnv emptyFS).2
        = (none, (mainRun idealEnv emptyFS).2) := by
  have hWF : FS.WF emptyFS := by
    intro d hd
    cases hd
  have h0 : (mainRun idealEnv emptyFS).1 = none := mainRun_ideal_spec.1
  have h : mainRun idealEnv emptyFS = (none, (mainRun idealEnv emptyFS).2) := by
    rw [← h0]
  exact ⟨hWF, h, main_idempotent idealEnv emptyFS _ hWF h⟩

/-- C4: a successful `create_stub_file(path, title)` over a pre-existing
file with arbitrary content replaces that content with the fixed
template, independently of the prior content. -/
theorem create_stub_file_overwrites (env : Env) (p : FPath) (t : String)
    (fs fs' : FS) (c : String) (_hold : lookupFile fs.files p = some c)
    (h : create_stub_file env p t fs = (none, fs')) :
    lookupFile fs'.files p = some (stubContent t) :=
  create_lookup_self env p t fs fs' h

/-- Witness for C4 at a concrete call over a pre-existing file. -/
theorem create_stub_file_overwrites_witness :
    lookupFile (FS.mk [["d"]] [(["d", "f.md"], "old body")]).files ["d", "f.md"]
      = some "old body"
    ∧ create_stub_file idealEnv ["d", "f.md"] "T"
        (FS.mk [["d"]] [(["d", "f.md"], "old body")])
      = (none, (create_stub_file idealEnv ["d", "f.md"] "T"
          (FS.mk [["d"]] [(["d", "f.md"], "old body")])).2)
    ∧ lookupFile (create_stub_file idealEnv ["d", "f.md"] "T"
        (FS.mk [["d"]] [(["d", "f.md"], "old body")])).2.files ["d", "f.md"]
      = some (stubContent "T") := by
  have hold : lookupFile (FS.mk [["d"]] [(["d", "f.md"], "old body")]).files
      ["d", "f.md"] = some "old body" := rfl
  have h : create_stub_file idealEnv ["d", "f.md"] "T"
      (FS.mk [["d"]] [(["d", "f.md"], "old body")])
    = (none, (create_stub_file idealEnv ["d", "f.md"] "T"
        (FS.mk [["d"]] [(["d", "f.md"], "old body")])).2) := rfl
  exact ⟨hold, h,
    create_stub_file_overwrites idealEnv _ "T" _ _ "old body" hold h⟩

/-- C5: distinct entries of the actual catalog tables derive distinct
output paths — no collision on
`PythonTypeGuide/level{L}/{category}/{lowercase(name)}.md`. -/
theorem catalog_paths_distinct :
    ∀ e1 ∈ catalogEntries, ∀ e2 ∈ catalogEntries,
      e1 ≠ e2 → entryPath e1 ≠ entryPath e2 := by
  intro e1 h1 e2 h2 hne heq
  exact hne (List.inj_on_of_nodup_map catalog_paths_nodup h1 h2 heq)

/-- Witness for C5 at two concrete distinct catalog entries. -/
theorem catalog_paths_distinct_witness :
    (⟨1, "primitive", "int"⟩ : Entry) ∈ catalogEntries
    ∧ (⟨1, "primitive", "float"⟩ : Entry) ∈ catalogEntries
    ∧ (⟨1, "primitive", "int"⟩ : Entry) ≠ ⟨1, "primitive", "float"⟩
    ∧ entryPath ⟨1, "primitive", "int"⟩ ≠ entryPath ⟨1, "primitive", "float"⟩ := by
  have h1 : (⟨1, "primitive", "int"⟩ : Entry) ∈ catalogEntries := by decide
  have h2 : (⟨1, "primitive", "float"⟩ : Entry) ∈ catalogEntries := by decide
  have h3 : (⟨1, "primitive", "int"⟩ : Entry) ≠ ⟨1, "primitive", "float"⟩ := by
    decide
  exact ⟨h1, h2, h3, catalog_paths_distinct _ h1 _ h2 h3⟩

/-- C6: when the first failing `create_stub_file` is the one for `bad`,
the whole run aborts right there with the state at the failure point:
files of earlier entries hold their stubs, and the failing entry and all
later entries have their paths exactly as before the run. -/
theorem run_aborts_on_error (env : Env) (fs fsmid fsbad : FS)
    (pre : List Entry) (bad : Entry) (post : List Entry) (er : Err)
    (hnd : ((pre ++ bad :: post).map entryPath).Nodup)
    (hpre : runEntries env pre fs = (none, fsmid))
    (hbad : create_stub_file env (entryPath bad) bad.name fsmid
      = (some er, fsbad)) :
    runEntries env (pre ++ bad :: post) fs = (some er, fsbad)
    ∧ (∀ e ∈ pre, lookupFile fsbad.files (entryPath e) = some (stubContent e.name))
    ∧ ∀ e ∈ bad :: post,
        lookupFile fsbad.files (entryPath e) = lookupFile fs.files (entryPath e) := by
  have hfiles : fsbad.files = fsmid.files :=
    create_err_files env (entryPath bad) bad.name fsmid er fsbad hbad
  rw [List.map_append] at hnd
  have hndpre : (pre.map entryPath).Nodup := hnd.of_append_left
  have hdisj := List.disjoint_of_nodup_append hnd
  refine ⟨?_, ?_, ?_⟩
  · rw [runEntries_append env pre (bad :: post) fs fsmid hpre]
    simp [runEntries, hbad]
  · intro e he
    rw [hfiles]
    exact (runEntries_success_facts env pre fs fsmid hndpre hpre e he).2.2.1
  · intro e he
    rw [hfiles]
    have hx : ∀ e2 ∈ pre, entryPath e2 ≠ entryPath e := by
      intro e2 he2 heq
      exact hdisj (List.mem_map_of_mem entryPath he2)
        (heq ▸ List.mem_map_of_mem entryPath he)
    have hu := runEntries_lookup_unchanged env pre fs (entryPath e) hx
    rw [hpre] at hu
    exact hu

/-- Witness for C6: a concrete environment failing the open of
`float.md`, with one entry before and one after the failing one. -/
theorem run_aborts_on_error_witness :
    (((([preE] : List Entry) ++ badE :: [postE]).map entryPath).Nodup)
    ∧ runEntries failFloatEnv [preE] emptyFS
        = (none, (runEntries failFloatEnv [preE] emptyFS).2)
    ∧ create_stub_file failFloatEnv (entryPath badE) badE.name
        (runEntries failFloatEnv [preE] emptyFS).2
      = (some Err.ioError,
         (create_stub_file failFloatEnv (entryPath badE) badE.name
           (runEntries failFloatEnv [preE] emptyFS).2).2)
    ∧ runEntries failFloatEnv ([preE] ++ badE :: [postE]) emptyFS
        = (some Err.ioError,
           (create_stub_file failFloatEnv (entryPath badE) badE.name
             (runEntries failFloatEnv [preE] emptyFS).2).2)
    ∧ (∀ e ∈ ([preE] : List Entry),
        lookupFile (create_stub_file failFloatEnv (entryPath badE) badE.name
          (runEntries failFloatEnv [preE] emptyFS).2).2.files (entryPath e)
          = some (stubContent e.name))
    ∧ ∀ e ∈ badE :: [postE],
        lookupFile (create_stub_file failFloatEnv (entryPath badE) badE.name
          (runEntries failFloatEnv [preE] emptyFS).2).2.files (entryPath e)
          = lookupFile emptyFS.files (entryPath e) := by
  have hnd : ((([preE] : List Entry) ++ badE :: [postE]).map entryPath).Nodup := by
    decide
  have hpre : runEntries failFloatEnv [preE] emptyFS
      = (none, (runEntries failFloatEnv [preE] emptyFS).2) := rfl
  have hbad : create_stub_file failFloatEnv (entryPath badE) badE.name
      (runEntries failFloatEnv [preE] emptyFS).2
    = (some Err.ioError,
       (create_stub_file failFloatEnv (entryPath badE) badE.name
         (runEntries failFloatEnv [preE] emptyFS).2).2) := rfl
  have h := run_aborts_on_error failFloatEnv emptyFS _ _ [preE] badE [postE]
    Err.ioError hnd hpre hbad
  exact ⟨hnd, hpre, hbad, h.1, h.2.1, h.2.2⟩

/-- C7: `create_stub_file` creates every missing ancestor directory of
its path and raises no error when some or all of them (here: the
arbitrary prior `fs.dirs`) already exist as directories. -/
theorem create_stub_file_makes_ancestors (p : FPath) (t : String) (fs : FS)
    (hd : p.dropLast ≠ [])
    (hanc : ∀ d ∈ ancestors p.dropLast, lookupFile fs.files d = none)
    (hp : p ∉ fs.dirs) :
    (create_stub_file idealEnv p t fs).1 = none
    ∧ ∀ d ∈ ancestors p.dropLast, d ∈ (create_stub_file idealEnv p t fs).2.dirs := by
  have h := create_ideal_ok p t fs hd hanc hp
  exact ⟨h.1, fun d hdm => (h.2.2 d).2 (Or.inr hdm)⟩

/-- Witness for C7: a call whose two ancestor directories both already
exist; the call succeeds and both remain present. -/
theorem create_stub_file_makes_ancestors_witness :
    ((["a", "b", "c.md"] : FPath).dropLast ≠ []
    ∧ (∀ d ∈ ancestors (["a", "b", "c.md"] : FPath).dropLast,
        lookupFile (FS.mk [["a"], ["a", "b"]] []).files d = none)
    ∧ (["a", "b", "c.md"] : FPath) ∉ (FS.mk [["a"], ["a", "b"]] []).dirs)
    ∧ (create_stub_file idealEnv ["a", "b", "c.md"] "T"
        (FS.mk [["a"], ["a", "b"]] [])).1 = none
    ∧ ∀ d ∈ ancestors (["a", "b", "c.md"] : FPath).dropLast,
        d ∈ (create_stub_file idealEnv ["a", "b", "c.md"] "T"
          (FS.mk [["a"], ["a", "b"]] [])).2.dirs := by
  have h1 : (["a", "b", "c.md"] : FPath).dropLast ≠ [] := by decide
  have h2 : ∀ d ∈ ancestors (["a", "b", "c.md"] : FPath).dropLast,
      lookupFile (FS.mk [["a"], ["a", "b"]] []).files d = none := by decide
  have h3 : (["a", "b", "c.md"] : FPath) ∉ (FS.mk [["a"], ["a", "b"]] []).dirs := by
    decide
  have h := create_stub_file_makes_ancestors ["a", "b", "c.md"] "T"
    (FS.mk [["a"], ["a", "b"]] []) h1 h2 h3
  exact ⟨⟨h1, h2, h3⟩, h.1, h.2⟩

/-- C8: processing the catalog in any permutation of the program's
iteration order, starting from an empty filesystem, succeeds and yields
the same files (same path-to-content mapping) and the same directories
as the program's own order. -/
theorem run_order_independent (l : List Entry) (hperm : l.Perm catalogEntries) :
    (runEntries idealEnv l emptyFS).1 = none
    ∧ (∀ p, lookupFile (runEntries idealEnv l emptyFS).2.files p
        = lookupFile (mainRun idealEnv emptyFS).2.files p)
    ∧ ∀ d, d ∈ (runEntries idealEnv l emptyFS).2.dirs
        ↔ d ∈ (mainRun idealEnv emptyFS).2.dirs := by
  have hndl : (l.map entryPath).Nodup :=
    ((hperm.map entryPath).nodup_iff).2 catalog_paths_nodup
  obtain ⟨hl1, hl2, hl3⟩ := runEntries_ideal_ok l emptyFS hndl
    (fun e _ d _ => rfl) (fun e _ hc => by cases hc) (fun e _ => rfl)
  obtain ⟨hm1, hm2, hm3⟩ := mainRun_ideal_spec
  refine ⟨hl1, fun p => ?_, fun d => ?_⟩
  · rw [hl2, hm2]
    rw [show emptyFS.files = [] from rfl, List.nil_append]
    by_cases hex : ∃ e ∈ catalogEntries, entryPath e = p
    · obtain ⟨e, he, rfl⟩ := hex
      rw [lookupFile_stub_map_of_mem l e hndl (hperm.mem_iff.2 he),
        lookupFile_stub_map_of_mem catalogEntries e catalog_paths_nodup he]
    · push_neg at hex
      rw [lookupFile_stub_map_of_not_mem l p
          (fun e he => hex e (hperm.mem_iff.1 he)),
        lookupFile_stub_map_of_not_mem catalogEntries p hex]
  · rw [hl3 d, hm3 d]
    rw [show emptyFS.dirs = [] from rfl]
    simp only [List.not_mem_nil, false_or]
    constructor
    · rintro ⟨e, he, hd2⟩
      exact ⟨e, hperm.mem_iff.1 he, hd2⟩
    · rintro ⟨e, he, hd2⟩
      exact ⟨e, hperm.mem_iff.2 he, hd2⟩

/-- Witness for C8: the reversed catalog order. -/
theorem run_order_independent_witness :
    (catalogEntries.reverse).Perm catalogEntries
    ∧ (runEntries idealEnv catalogEntries.reverse emptyFS).1 = none
    ∧ (∀ p, lookupFile (runEntries idealEnv catalogEntries.reverse emptyFS).2.files p
        = lookupFile (mainRun idealEnv emptyFS).2.files p)
    ∧ ∀ d, d ∈ (runEntries idealEnv catalogEntries.reverse emptyFS).2.dirs
        ↔ d ∈ (mainRun idealEnv emptyFS).2.dirs := by
  have hp : (catalogEntries.reverse).Perm catalogEntries :=
    List.reverse_perm catalogEntries
  have h := run_order_independent catalogEntries.reverse hp
  exact ⟨hp, h.1, h.2.1, h.2.2⟩

/-- C9: the ideal run of `main` from an empty filesystem succeeds and
writes exactly 84 files — 29 in level1 (7 primitive, 5 collections,
9 utilities, 8 abcs), 22 in level2 (4 structured, 5 abcs, 5 async,
3 callable, 5 tools) and 33 in level3 (7 generics, 4 protocols,
8 internals, 6 domain, 8 decorators) — and every file and directory it
produces lies under the `PythonTypeGuide` base directory. -/
theorem main_writes_84_files :
    (mainRun idealEnv emptyFS).1 = none
    ∧ (mainRun idealEnv emptyFS).2.files.length = 84
    ∧ (mainRun idealEnv emptyFS).2.files.countP
        (fun pc => decide (pc.1.take 2 = ["PythonTypeGuide", "level1"])) = 29
    ∧ (mainRun idealEnv emptyFS).2.files.countP
        (fun pc => decide (pc.1.take 2 = ["PythonTypeGuide", "level2"])) = 22
    ∧ (mainRun idealEnv emptyFS).2.files.countP
        (fun pc => decide (pc.1.take 2 = ["PythonTypeGuide", "level3"])) = 33
    ∧ (mainRun idealEnv emptyFS).2.files.countP
        (fun pc => decide (pc.1.take 3 = ["PythonTypeGuide", "level1", "primitive"])) = 7
    ∧ (mainRun idealEnv emptyFS).2.files.countP
        (fun pc => decide (pc.1.take 3 = ["PythonTypeGuide", "level1", "collections"])) = 5
    ∧ (mainRun idealEnv emptyFS).2.files.countP
        (fun pc => decide (pc.1.take 3 = ["PythonTypeGuide", "level1", "utilities"])) = 9
    ∧ (mainRun idealEnv emptyFS).2.files.countP
        (fun pc => decide (pc.1.take 3 = ["PythonTypeGuide", "level1", "abcs"])) = 8
    ∧ (mainRun idealEnv emptyFS).2.files.countP
        (fun pc => decide (pc.1.take 3 = ["PythonTypeGuide", "level2", "structured"])) = 4
    ∧ (mainRun idealEnv emptyFS).2.files.countP
        (fun pc => decide (pc.1.take 3 = ["PythonTypeGuide", "level2", "abcs"])) = 5
    ∧ (mainRun idealEnv emptyFS).2.files.countP
        (fun pc => decide (pc.1.take 3 = ["PythonTypeGuide", "level2", "async"])) = 5
    ∧ (mainRun idealEnv emptyFS).2.files.countP
        (fun pc => decide (pc.1.take 3 = ["PythonTypeGuide", "level2", "callable"])) = 3
    ∧ (mainRun idealEnv emptyFS).2.files.countP
        (fun pc => decide (pc.1.take 3 = ["PythonTypeGuide", "level2", "tools"])) = 5
    ∧ (mainRun idealEnv emptyFS).2.files.countP
        (fun pc => decide (pc.1.take 3 = ["PythonTypeGuide", "level3", "generics"])) = 7
    ∧ (mainRun idealEnv emptyFS).2.files.countP
        (fun pc => decide (pc.1.take 3 = ["PythonTypeGuide", "level3", "protocols"])) = 4
    ∧ (mainRun idealEnv emptyFS).2.files.countP
        (fun pc => decide (pc.1.take 3 = ["PythonTypeGuide", "level3", "internals"])) = 8
    ∧ (mainRun idealEnv emptyFS).2.files.countP
        (fun pc => decide (pc.1.take 3 = ["PythonTypeGuide", "level3", "domain"])) = 6
    ∧ (mainRun idealEnv emptyFS).2.files.countP
        (fun pc => decide (pc.1.take 3 = ["PythonTypeGuide", "level3", "decorators"])) = 8
    ∧ (∀ pc ∈ (mainRun idealEnv emptyFS).2.files,
        pc.1.head? = some "PythonTypeGuide")
    ∧ ∀ d ∈ (mainRun idealEnv emptyFS).2.dirs,
        d.head? = some "PythonTypeGuide" := by
  obtain ⟨h1, h2, h3⟩ := mainRun_ideal_spec
  refine ⟨h1, by rw [h2]; rfl, by rw [h2]; rfl, by rw [h2]; rfl, by rw [h2]; rfl,
    by rw [h2]; rfl, by rw [h2]; rfl, by rw [h2]; rfl, by rw [h2]; rfl,
    by rw [h2]; rfl, by rw [h2]; rfl, by rw [h2]; rfl, by rw [h2]; rfl,
    by rw [h2]; rfl, by rw [h2]; rfl, by rw [h2]; rfl, by rw [h2]; rfl,
    by rw [h2]; rfl, by rw [h2]; rfl, ?_, ?_⟩
  · intro pc hpc
    rw [h2] at hpc
    obtain ⟨e, he, rfl⟩ := List.mem_map.1 hpc
    rfl
  · intro d hd
    obtain ⟨e, he, ha⟩ := (h3 d).1 hd
    exact mem_ancestors_entry_head e d ha

/-- C10: a path with no directory component makes `create_stub_file`
fail in the `os.makedirs` call before anything is written: the
filesystem state is returned unchanged, so no file is created. -/
theorem create_stub_file_bare_filename_fails (env : Env) (p : FPath)
    (t : String) (fs : FS) (h : p.dropLast = []) :
    create_stub_file env p t fs = (some Err.fileNotFound, fs) := by
  simp [create_stub_file, makedirs, h]

/-- Witness for C10: a bare filename. -/
theorem create_stub_file_bare_filename_fails_witness :
    (["readme.md"] : FPath).dropLast = []
    ∧ create_stub_file idealEnv ["readme.md"] "Readme" emptyFS
      = (some Err.fileNotFound, emptyFS) := by
  have h : (["readme.md"] : FPath).dropLast = [] := rfl
  exact ⟨h, create_stub_file_bare_filename_fails idealEnv ["readme.md"]
    "Readme" emptyFS h⟩
